import Mathlib

/-!
Verification of the google_sheets_driver repository: a shallow embedding of
its addressing core (base-26 column codec, A1 cell and range types), its
marshalling core (cell and row codecs) and its positional repository, with
theorems settling the frozen specification claims.

Conventions of the embedding:
* Rust strings are `List Char`; only ASCII data is exercised by the claims,
  and the ASCII restriction of `char::is_alphabetic` / `char::is_numeric`
  is noted where it is used.
* Rust `u32` arithmetic is `Nat` with an explicit `% 4294967296` where the
  source can overflow (release-profile wrap-around semantics).
* Fallible Rust code returns `Except`; code that can also panic returns
  `Outcome`, whose `panicked` constructor records the panic message.
-/

/-- Wrap-around modulus of Rust `u32`. -/
def u32Mod : Nat := 4294967296

/-- Result of running a piece of Rust code that may return, fail with a typed
error, or panic. -/
inductive Outcome (ε : Type) (α : Type) where
  | ok (a : α)
  | error (e : ε)
  | panicked (msg : List Char)
deriving DecidableEq, Repr

/-! ## Column codec (src/types/cell/conversions.rs) -/

/-- `string_to_dec_as_base26` (conversions.rs lines 85-91): fold the letters
most-significant first, `result = result * 26 + (letter - 'A' + 1)`, in `u32`
arithmetic (wrap-around modelled by `% u32Mod`). -/
def string_to_dec_as_base26 (s : List Char) : Nat :=
  s.foldl (fun acc c => (acc * 26 + (c.toNat - 65 + 1)) % u32Mod) 0

/-- Mathematical (non-wrapping) value of a base-26 letter string; used only to
state the no-overflow side conditions of theorems about the `u32` codec. -/
def base26Val (s : List Char) : Nat :=
  s.foldl (fun acc c => acc * 26 + (c.toNat - 65 + 1)) 0

/-- Fuel-driven core of `dec_to_string_as_base26`; the fuel only bounds the
loop (`n / 26` strictly decreases), it never changes the value. -/
def d2sF : Nat → Nat → List Char
  | _, 0 => []
  | 0, _ + 1 => []
  | f + 1, n + 1 => d2sF f (n / 26) ++ [Char.ofNat (n % 26 + 65)]

/-- `dec_to_string_as_base26` (conversions.rs lines 94-103): repeatedly take
`dec_number -= 1`, emit `dec_number % 26 + 'A'`, continue with
`dec_number / 26`; the source builds the string in reverse and reverses it,
here rendered as a right-append recursion. -/
def dec_to_string_as_base26 (n : Nat) : List Char := d2sF n n

theorem d2sF_irrel : ∀ f₁ f₂ n, n ≤ f₁ → n ≤ f₂ → d2sF f₁ n = d2sF f₂ n := by
  intro f₁
  induction f₁ with
  | zero =>
    intro f₂ n h₁ _
    interval_cases n
    cases f₂ <;> rfl
  | succ f ih =>
    intro f₂ n h₁ h₂
    cases n with
    | zero => cases f₂ <;> rfl
    | succ m =>
      cases f₂ with
      | zero => omega
      | succ g =>
        show d2sF f (m / 26) ++ _ = d2sF g (m / 26) ++ _
        rw [ih g (m / 26) (by omega) (by omega)]

theorem dec_to_string_succ (n : Nat) :
    dec_to_string_as_base26 (n + 1) =
      dec_to_string_as_base26 (n / 26) ++ [Char.ofNat (n % 26 + 65)] := by
  show d2sF (n + 1) (n + 1) = d2sF (n / 26) (n / 26) ++ _
  show d2sF n (n / 26) ++ _ = _
  rw [d2sF_irrel n (n / 26) (n / 26) (by omega) (by omega)]

theorem base26Val_append (l : List Char) (c : Char) :
    base26Val (l ++ [c]) = base26Val l * 26 + (c.toNat - 65 + 1) := by
  simp [base26Val, List.foldl_append]

theorem charOfNat_toNat (n : Nat) (h : n < 120) : (Char.ofNat n).toNat = n := by
  have hv : n.isValidChar := Or.inl (by omega)
  simp [Char.ofNat, Char.ofNatAux, Char.toNat, hv, UInt32.toNat, BitVec.toNat_ofNatLt]

theorem base26Val_roundtrip : ∀ n : Nat, base26Val (dec_to_string_as_base26 n) = n := by
  intro n
  induction n using Nat.strong_induction_on with
  | _ n ih =>
    cases n with
    | zero => rfl
    | succ m =>
      rw [dec_to_string_succ, base26Val_append, ih (m / 26) (by omega),
        charOfNat_toNat _ (by omega)]
      omega

theorem string_to_dec_eq_base26Val :
    ∀ l : List Char, base26Val l < u32Mod → string_to_dec_as_base26 l = base26Val l := by
  intro l
  induction l using List.reverseRecOn with
  | nil => intro _; rfl
  | append_singleton l c ih =>
    intro h
    have hl : base26Val l < u32Mod := by
      rw [base26Val_append] at h
      omega
    rw [string_to_dec_as_base26, List.foldl_append]
    simp only [List.foldl_cons, List.foldl_nil]
    rw [show l.foldl (fun acc c => (acc * 26 + (c.toNat - 65 + 1)) % u32Mod) 0 =
      string_to_dec_as_base26 l from rfl, ih hl, base26Val_append]
    rw [base26Val_append] at h
    exact Nat.mod_eq_of_lt h

theorem string_to_dec_roundtrip (n : Nat) (h : n < u32Mod) :
    string_to_dec_as_base26 (dec_to_string_as_base26 n) = n := by
  rw [string_to_dec_eq_base26Val _ (by rw [base26Val_roundtrip]; exact h),
    base26Val_roundtrip]

theorem dec_to_string_roundtrip :
    ∀ l : List Char, (∀ c ∈ l, 'A' ≤ c ∧ c ≤ 'Z') →
      dec_to_string_as_base26 (base26Val l) = l := by
  intro l
  induction l using List.reverseRecOn with
  | nil => intro _; rfl
  | append_singleton l c ih =>
    intro h
    have hc : 65 ≤ c.toNat ∧ c.toNat ≤ 90 := by
      have := h c (by simp)
      exact ⟨this.1, this.2⟩
    have hl : ∀ x ∈ l, 'A' ≤ x ∧ x ≤ 'Z' := fun x hx => h x (by simp [hx])
    rw [base26Val_append]
    have hd : base26Val l * 26 + (c.toNat - 65 + 1) =
        (base26Val l * 26 + (c.toNat - 65)) + 1 := by omega
    rw [hd, dec_to_string_succ]
    have hdiv : (base26Val l * 26 + (c.toNat - 65)) / 26 = base26Val l := by omega
    have hmod : (base26Val l * 26 + (c.toNat - 65)) % 26 = c.toNat - 65 := by omega
    rw [hdiv, hmod, ih hl]
    have : c.toNat - 65 + 65 = c.toNat := by omega
    rw [this, Char.ofNat_toNat]

/-- C4: the column codec round-trips in both directions, on the domain where
the claim survives: for every u32 rank `r ≥ 1` the rank-to-letters-to-rank
composition is the identity, and for every non-empty string of uppercase
ASCII letters whose base-26 value fits in u32 the letters-to-rank-to-letters
composition is the identity. (The original claim quantified over every
string accepted by the `Letters` constructor, which also accepts lowercase
letters; see the counterexample.) -/
theorem c4_column_codec_roundtrip : ∀ (r : Nat) (l : List Char),
    (1 ≤ r → r < u32Mod →
      string_to_dec_as_base26 (dec_to_string_as_base26 r) = r) ∧
    (l ≠ [] → (∀ c ∈ l, 'A' ≤ c ∧ c ≤ 'Z') → base26Val l < u32Mod →
      dec_to_string_as_base26 (string_to_dec_as_base26 l) = l) := by
  intro r l
  constructor
  · intro _ hr
    exact string_to_dec_roundtrip r hr
  · intro _ hup hb
    rw [string_to_dec_eq_base26Val l hb]
    exact dec_to_string_roundtrip l hup

/-- C4 witness: the round trips evaluated at rank 27 and at the string AA. -/
theorem c4_column_codec_roundtrip_witness :
    string_to_dec_as_base26 (dec_to_string_as_base26 27) = 27 ∧
    dec_to_string_as_base26 (string_to_dec_as_base26 ['A', 'A']) = ['A', 'A'] :=
  ⟨(c4_column_codec_roundtrip 27 ['A', 'A']).1 (by decide) (by decide),
   (c4_column_codec_roundtrip 27 ['A', 'A']).2 (by decide) (by decide) (by decide)⟩

/-- C4 counterexample: the string a (lowercase) is accepted by the `Letters`
constructor (`char::is_alphabetic` holds), yet the letters-to-rank-to-letters
composition maps it to AG, not back to itself; moreover a seven-letter
uppercase string already overflows the u32 rank and fails to round-trip. -/
theorem c4_column_codec_counterexample :
    string_to_dec_as_base26 ['a'] = 33 ∧
    dec_to_string_as_base26 (string_to_dec_as_base26 ['a']) = ['A', 'G'] ∧
    dec_to_string_as_base26 (string_to_dec_as_base26 ['a']) ≠ ['a'] ∧
    dec_to_string_as_base26
        (string_to_dec_as_base26 ['Z', 'Z', 'Z', 'Z', 'Z', 'Z', 'Z']) ≠
      ['Z', 'Z', 'Z', 'Z', 'Z', 'Z', 'Z'] := by
  refine ⟨by decide, by decide, by decide, by decide⟩

/-! ## Letters arithmetic (src/types/letters.rs) -/

/-- `impl Add<u32> for Letters` (letters.rs lines 58-67): convert to the u32
rank, add (u32 wrap-around), convert back. `Letters::new` on the result would
panic for rank 0; that cannot happen for the inputs the claims exercise. -/
def lettersAdd (l : List Char) (delta : Nat) : List Char :=
  dec_to_string_as_base26 ((string_to_dec_as_base26 l + delta) % u32Mod)

/-- `impl Sub<u32> for Letters` (letters.rs lines 78-87): convert to the u32
rank, subtract (u32 wrap-around, in release profile), convert back. -/
def lettersSub (l : List Char) (delta : Nat) : List Char :=
  dec_to_string_as_base26
    ((string_to_dec_as_base26 l + (u32Mod - delta % u32Mod)) % u32Mod)

/-! ## Cell ids (src/types/cell/a1_cell_id.rs) -/

/-- `A1CellId`: a column given by letters and a 1-based row. The source keeps
the row in a `NonZeroU32`; here it is a `Nat`, and the places where the source
would panic on a zero value are noted at each operation. -/
structure A1CellId where
  col : List Char
  row : Nat
deriving DecidableEq, Repr

/-- `SheetA1CellId`: sheet name plus cell. -/
structure SheetA1CellId where
  sheet_name : List Char
  cell : A1CellId
deriving DecidableEq, Repr

/-- `impl Add for A1CellId` (a1_cell_id.rs lines 64-80): the row is the u32 sum
of the rows (`NonZero::new(..).expect` would panic if the sum wrapped to 0) and
the column is `self.col + string_to_dec_as_base26(other.col)`. -/
def A1CellId.add (a b : A1CellId) : A1CellId :=
  { col := lettersAdd a.col (string_to_dec_as_base26 b.col),
    row := (a.row + b.row) % u32Mod }

/-- `A1CellId::delta` (a1_cell_id.rs lines 128-140): shift the row by a signed
amount (`i32` add, then `as u32` wrap-around cast, modelled by `Int.emod`;
`expect` would panic if the result were 0) and the column through letters
addition or subtraction depending on the sign. -/
def A1CellId.delta (c : A1CellId) (columns rows : Int) : A1CellId :=
  let number := (((c.row : Int) + rows).emod 4294967296).toNat
  let letter :=
    if columns < 0 then lettersSub c.col columns.natAbs
    else lettersAdd c.col columns.toNat
  { col := letter, row := number }

/-- `impl PartialOrd for A1CellId` (a1_cell_id.rs lines 199-210): columns are
compared through their base-26 u32 ranks (`impl PartialOrd for Letters`), rows
numerically, and the result is `row_ordering.then(column_ordering)` — the row
dominates. Both component comparisons always succeed, so the partial order is
total and is rendered here as an `Ordering`-valued comparison. -/
def A1CellId.cmp (a b : A1CellId) : Ordering :=
  (compare a.row b.row).then
    (compare (string_to_dec_as_base26 a.col) (string_to_dec_as_base26 b.col))

/-- Rust `self.current > self.range.end`: `partial_cmp` returned `Greater`. -/
def A1CellId.gtCell (a b : A1CellId) : Bool := A1CellId.cmp a b == .gt

/-! ## Ranges and their iterator (src/types/range/a1_range.rs) -/

/-- `A1Range`: inclusive rectangle between two cells (the source field `end`
is a reserved word in Lean and is called `endCell` here). -/
structure A1Range where
  start : A1CellId
  endCell : A1CellId
deriving DecidableEq, Repr

/-- `SheetA1Range`: a range plus the owning sheet name. -/
structure SheetA1Range where
  sheet : List Char
  range : A1Range
deriving DecidableEq, Repr

/-- `SheetA1Range::start` (a1_range.rs lines 221-223). -/
def SheetA1Range.startCell (sr : SheetA1Range) : SheetA1CellId :=
  { sheet_name := sr.sheet, cell := sr.range.start }

/-- `A1RangeIterator` (a1_range.rs lines 35-38). -/
structure A1RangeIterator where
  range : A1Range
  current : A1CellId
deriving DecidableEq, Repr

/-- `A1Range::iter` (a1_range.rs lines 25-30). -/
def A1Range.iter (r : A1Range) : A1RangeIterator := { range := r, current := r.start }

/-- `impl Iterator for A1RangeIterator` (a1_range.rs lines 40-59): stop when
`current > end` under the cell ordering; otherwise yield `current` and advance
— to the start column of the next row when the current column equals the end
column (the `+ 1` on the row is u32 addition; `expect` would panic on wrap to
0), one column to the right otherwise. Returns the yielded item and the
successor iterator state. -/
def A1RangeIterator.next (it : A1RangeIterator) : Option A1CellId × A1RangeIterator :=
  if A1CellId.gtCell it.current it.range.endCell then (none, it)
  else
    let result := it.current
    if it.current.col = it.range.endCell.col then
      (some result,
        { it with current := { col := it.range.start.col, row := (it.current.row + 1) % u32Mod } })
    else
      (some result, { it with current := it.current.delta 1 0 })

/-- The first `fuel` items an `A1RangeIterator` yields (the Rust iteration is
the unbounded limit of this). -/
def A1RangeIterator.take : Nat → A1RangeIterator → List A1CellId
  | 0, _ => []
  | fuel + 1, it =>
    match it.next with
    | (none, _) => []
    | (some c, it') => c :: A1RangeIterator.take fuel it'

/-- C5 (amended): for every A1Range whose start strictly exceeds its end under
the code's row-dominant cell ordering, iteration yields zero cells and
terminates: the very first `next` returns `none` and leaves the state
unchanged, so any number of steps collect an empty list. (The original claim
offered start B1, end A2 as an improper range; under the row-dominant ordering
B1 precedes A2, and iterating that range in fact never terminates — see the
counterexample.) -/
theorem c5_improper_range_iteration_empty :
    ∀ (r : A1Range) (n : Nat), A1CellId.gtCell r.start r.endCell = true →
      r.iter.next = (none, r.iter) ∧ r.iter.take n = [] := by
  intro r n h
  have hnext : r.iter.next = (none, r.iter) := by
    unfold A1RangeIterator.next
    rw [show r.iter.current = r.start from rfl, show r.iter.range = r from rfl, if_pos h]
  refine ⟨hnext, ?_⟩
  cases n with
  | zero => rfl
  | succ m =>
    unfold A1RangeIterator.take
    split
    · rfl
    · rename_i c it' heq
      rw [hnext] at heq
      cases heq

/-- C5 witness: the improper range with start B2 and end A1 iterates to the
empty list. -/
theorem c5_improper_range_iteration_empty_witness :
    (A1Range.mk ⟨['B'], 2⟩ ⟨['A'], 1⟩).iter.next =
        (none, (A1Range.mk ⟨['B'], 2⟩ ⟨['A'], 1⟩).iter) ∧
      (A1Range.mk ⟨['B'], 2⟩ ⟨['A'], 1⟩).iter.take 3 = [] :=
  c5_improper_range_iteration_empty (A1Range.mk ⟨['B'], 2⟩ ⟨['A'], 1⟩) 3 (by decide)

/-- C5 counterexample: the range with start B1 and end A2, which the claim
lists as improper, is not improper under the code's row-dominant ordering
(B1 compares less than A2), and iterating it is not empty: the first four
steps already yield B1, C1, D1, E1 — the column keeps growing to the right of
the end column A and the row never advances, so the iteration never reaches
the end cell. -/
theorem c5_improper_range_iteration_counterexample :
    A1CellId.cmp ⟨['B'], 1⟩ ⟨['A'], 2⟩ = .lt ∧
    (A1Range.mk ⟨['B'], 1⟩ ⟨['A'], 2⟩).iter.take 1 = [⟨['B'], 1⟩] ∧
    (A1Range.mk ⟨['B'], 1⟩ ⟨['A'], 2⟩).iter.take 4 =
      [⟨['B'], 1⟩, ⟨['C'], 1⟩, ⟨['D'], 1⟩, ⟨['E'], 1⟩] ∧
    (A1Range.mk ⟨['B'], 1⟩ ⟨['A'], 2⟩).iter.take 1 ≠ [] := by
  refine ⟨by decide, by decide, by decide, by decide⟩

/-! ## Repository range computation (src/orm/mod.rs) -/

/-- `Repository::convert_into_range` (orm/mod.rs lines 53-67): the end cell is
`start + A1CellId(start.col + width - 2, rows)` (the source comment says the
`- 2` compensates the 1-based offset twice; `NonZero::new(rows).expect` would
panic for `rows = 0`). The source carries its own TODO:
`Fix possible bug with rows: 1 producing range of 2 rows because of 1-based indexing`. -/
def Repository.convert_into_range (start : SheetA1CellId) (rows width : Nat) : SheetA1Range :=
  let compensation : Nat := 2
  let offset : A1CellId :=
    { col := lettersSub (lettersAdd start.cell.col width) compensation, row := rows }
  let end_cell := A1CellId.add start.cell offset
  { sheet := start.sheet_name, range := { start := start.cell, endCell := end_cell } }

/-- C1: evaluation of the range computation at the claim's own example
(start users!A1, rows 3, entity width 2). The code produces users!A1:B4 —
the end row is `start.row + rows`, one more row than the claimed
`start.row + rows - 1` (the source marks this with a TODO calling it a
possible bug), so the computed range is not A1:B3 as the claim and the spec
state. The start corner does equal the given start cell. -/
theorem c1_convert_into_range_extra_row :
    Repository.convert_into_range ⟨['u', 's', 'e', 'r', 's'], ⟨['A'], 1⟩⟩ 3 2 =
      ⟨['u', 's', 'e', 'r', 's'], ⟨⟨['A'], 1⟩, ⟨['B'], 4⟩⟩⟩ ∧
    (Repository.convert_into_range ⟨['u', 's', 'e', 'r', 's'], ⟨['A'], 1⟩⟩ 3 2).range.start =
      ⟨['A'], 1⟩ ∧
    (⟨['B'], 4⟩ : A1CellId) ≠ ⟨['B'], 3⟩ := by
  refine ⟨by decide, by decide, by decide⟩

/-! ## Parsing a cell from text (src/types/cell/a1_cell_id.rs lines 171-197) -/

/-- ASCII restriction of Rust `char::is_alphabetic` (the claims only exercise
ASCII inputs). -/
def isAsciiAlphaChar (c : Char) : Bool :=
  ('A' ≤ c && c ≤ 'Z') || ('a' ≤ c && c ≤ 'z')

/-- ASCII restriction of Rust `char::is_numeric`. -/
def isAsciiDigitChar (c : Char) : Bool := '0' ≤ c && c ≤ '9'

/-- Numeric value of a decimal digit string (the mathematical value; the u32
bound is checked where `str::parse` would). -/
def digitsToNat (l : List Char) : Nat :=
  l.foldl (fun acc c => acc * 10 + (c.toNat - 48)) 0

/-- Typed error of cell parsing (`A1CellIdError`, a1_cell_id.rs lines 51-55). -/
inductive A1CellIdError where
  | invalidCellFormat (s : List Char)
deriving DecidableEq, Repr

/-- The character loop of `TryFrom<&str> for A1CellId`: alphabetic characters
are pushed onto `letter`, numeric ones onto `number`, anything else aborts
with the format error (`none` here); the two accumulated strings keep their
relative orders but lose the interleaving. -/
def splitAlphaNum : List Char → Option (List Char × List Char)
  | [] => some ([], [])
  | c :: rest =>
    match splitAlphaNum rest with
    | none => none
    | some (ls, ds) =>
      if isAsciiAlphaChar c then some (c :: ls, ds)
      else if isAsciiDigitChar c then some (ls, c :: ds)
      else none

/-- `impl TryFrom<&str> for A1CellId` (a1_cell_id.rs lines 171-197): sort the
characters into letters and digits (any other character is a typed format
error), reject an empty letter or digit part with a typed format error, then
`number.parse().unwrap()` — the target type is `NonZeroU32`, so a zero or
out-of-u32-range number makes the `unwrap` panic instead of returning an
error. -/
def A1CellId.tryFrom (value : List Char) : Outcome A1CellIdError A1CellId :=
  match splitAlphaNum value with
  | none => .error (.invalidCellFormat value)
  | some (letter, number) =>
    if letter = [] ∨ number = [] then .error (.invalidCellFormat value)
    else
      let n := digitsToNat number
      if n = 0 ∨ u32Mod ≤ n then
        .panicked ['u', 'n', 'w', 'r', 'a', 'p', ' ', 'o', 'n', ' ', 'E', 'r', 'r']
      else .ok ⟨letter, n⟩

/-- C6: evaluation of the cell-address parser at the claim's inputs. The
input A0 makes the code panic (the `unwrap` on parsing 0 as `NonZeroU32`)
instead of returning the typed error the claim requires; the non-canonical
inputs 1A and A1B2 are accepted and parse as if they were the canonical A1
and AB12; a genuinely malformed input such as A# does take the typed-error
path, and canonical A1 parses.  -/
theorem c6_cell_parse_zero_row_panics :
    A1CellId.tryFrom ['A', '0'] =
      .panicked ['u', 'n', 'w', 'r', 'a', 'p', ' ', 'o', 'n', ' ', 'E', 'r', 'r'] ∧
    A1CellId.tryFrom ['1', 'A'] = .ok ⟨['A'], 1⟩ ∧
    A1CellId.tryFrom ['A', '1', 'B', '2'] = .ok ⟨['A', 'B'], 12⟩ ∧
    A1CellId.tryFrom ['A', '#'] = .error (.invalidCellFormat ['A', '#']) ∧
    A1CellId.tryFrom ['A', '1'] = .ok ⟨['A'], 1⟩ := by
  refine ⟨by decide, by decide, by decide, by decide, by decide⟩

/-! ## Cell values and the row codec (src/mapper.rs, src/mapper/sheet_row.rs,
src/mapper/sheet_cell.rs) -/

/-- Decidable equality for `Except`, used to evaluate the embedded fallible
operations on concrete inputs. -/
instance exceptDecEq {ε α : Type} [DecidableEq ε] [DecidableEq α] :
    DecidableEq (Except ε α)
  | .ok a, .ok b =>
    if h : a = b then .isTrue (by rw [h])
    else .isFalse (by intro he; cases he; exact h rfl)
  | .ok _, .error _ => .isFalse (by intro h; cases h)
  | .error _, .ok _ => .isFalse (by intro h; cases h)
  | .error a, .error b =>
    if h : a = b then .isTrue (by rw [h])
    else .isFalse (by intro he; cases he; exact h rfl)

/-- A raw grid cell as delivered by the service (`serde_json::Value`). The
cited code only distinguishes string values (`as_str` succeeds) from every
other variant (`as_str` returns `None` uniformly), so the non-string variants
are collapsed into one constructor. -/
inductive CellValue where
  | str (s : List Char)
  | nonString
deriving DecidableEq, Repr

/-- `CellParsingError` / `TryFromCellError`: the unit-like typed error of the
per-cell codecs (sheet_cell.rs lines 10-12, mapper.rs lines 83-85). -/
inductive CellParsingError where
  | couldNotConvert
deriving DecidableEq, Repr

/-- `ParseError` of the row codec (sheet_row.rs lines 37-57; mapper.rs has a
field-for-field copy). The error-stack printable attachments (the full row)
are context, not part of the variant data, and are not modelled. -/
inductive ParseError where
  | fieldIsMissing (field : List Char)
  | jsonValueToStringError (v : CellValue)
  | jsonStringDeserializationError
  | cellDeserializationError (column_name type_name input : List Char)
  | invalidRowLength (min max actual : Nat)
deriving DecidableEq, Repr

/-- The literal Rust renders `type_name::<Option<S>>()` with. -/
def optionTypePfx : List Char := "core::option::Option<".data

/-- `parse_optional_value` (sheet_row.rs lines 77-107; mapper.rs lines 51-81
is the same body): the Rust generic over `T : SheetRawCellSerde + Default` is
embedded by passing the pieces the body consults — the printed type name
`type_name::<T>()`, `T::default()` and `T::deserialize`. If the printed type
name starts with `core::option::Option<` the call returns `Ok(T::default())`
at once, before looking at the cell; otherwise a missing cell is the
`FieldIsMissing` error, a non-string cell is the `JsonValueToStringError`,
and a codec failure is the `CellDeserializationError` carrying field, type
name and raw input. -/
def parse_optional_value {T : Type} (typeName : List Char) (defaultVal : T)
    (deserialize : List Char → Except CellParsingError T)
    (value : Option CellValue) (_row : List CellValue) (field_name : List Char) :
    Except ParseError T :=
  if optionTypePfx.isPrefixOf typeName then .ok defaultVal
  else
    match value with
    | none => .error (.fieldIsMissing field_name)
    | some v =>
      match v with
      | .str s =>
        match deserialize s with
        | .ok t => .ok t
        | .error _ => .error (.cellDeserializationError field_name typeName s)
      | .nonString => .error (.jsonValueToStringError v)

/-- `SheetRowExt::parse_cell` (sheet_row.rs lines 26-34): look the cell up by
0-based index (`Vec::get`) and run `parse_optional_value` on it. -/
def parse_cell {T : Type} (typeName : List Char) (defaultVal : T)
    (deserialize : List Char → Except CellParsingError T)
    (row : List CellValue) (cell_id : Nat) (column_name : List Char) :
    Except ParseError T :=
  parse_optional_value typeName defaultVal deserialize (row.get? cell_id) row column_name

/-- Digit run accepted by Rust integer parsing (non-empty, all ASCII digits). -/
def parseIntDigits (l : List Char) : Option Nat :=
  if l ≠ [] ∧ l.all isAsciiDigitChar then some (digitsToNat l) else none

/-- Rust `str::parse::<i32>`: optional sign, a digit run, and the i32 range
check. -/
def rustParseI32 (s : List Char) : Option Int :=
  match s with
  | '-' :: rest =>
    (parseIntDigits rest).bind fun n =>
      if n ≤ 2147483648 then some (-(n : Int)) else none
  | '+' :: rest =>
    (parseIntDigits rest).bind fun n =>
      if n ≤ 2147483647 then some ((n : Int)) else none
  | _ =>
    (parseIntDigits s).bind fun n =>
      if n ≤ 2147483647 then some ((n : Int)) else none

/-- `impl SheetRawCellSerde for i32` (sheet_cell.rs, `impl_sheet_raw_cell_serde`
macro): `cell.parse::<i32>()` mapped into the typed cell error. -/
def i32Deserialize (s : List Char) : Except CellParsingError Int :=
  match rustParseI32 s with
  | some n => .ok n
  | none => .error .couldNotConvert

/-- `impl SheetRawCellSerde for String` (sheet_cell.rs lines 34-38): the
identity codec. -/
def stringDeserialize (s : List Char) : Except CellParsingError (List Char) := .ok s

/-- `impl<T: CellSerde> CellSerde for Option<T>` (mapper.rs lines 129-133):
`Ok(T::deserialize(cell).ok())` — attempt the inner codec and turn failure
into `None`, never an error. -/
def optionDeserialize {S : Type} (deserialize : List Char → Except CellParsingError S)
    (s : List Char) : Except CellParsingError (Option S) :=
  .ok (deserialize s).toOption

/-- C3 (amended): for every field whose declared type is `Option<S>`, row
deserialization returns the type's empty value `None` unconditionally —
before consulting the cell — so it never errors for that field, but it also
never applies S's codec to a present cell: the type-name test
`type_name::<T>().starts_with("core::option::Option<")` short-circuits
`parse_optional_value`, and the `Option<T>` cell codec (which would attempt
the inner codec and convert failure into an absent value) is never reached
from the row-level positional parse. The cell-level `Option` codec itself
does behave as the claim describes (first conjunct). -/
theorem c3_optional_field_always_default :
    ∀ (S : Type) (deserialize : List Char → Except CellParsingError S)
      (value : Option CellValue) (row : List CellValue)
      (field_name typeName s : List Char),
      (optionDeserialize deserialize s = .ok (deserialize s).toOption) ∧
      (optionTypePfx.isPrefixOf typeName = true →
        parse_optional_value typeName (none : Option S) (optionDeserialize deserialize)
          value row field_name = .ok none) := by
  intro S deserialize value row field_name typeName s
  refine ⟨rfl, ?_⟩
  intro h
  unfold parse_optional_value
  rw [if_pos h]

/-- C3 witness: the Option-of-i32 field instantiation. -/
theorem c3_optional_field_always_default_witness :
    parse_optional_value "core::option::Option<i32>".data (none : Option Int)
        (optionDeserialize i32Deserialize) (some (.str ['5'])) [.str ['5']]
        "id".data = .ok none :=
  (c3_optional_field_always_default Int i32Deserialize (some (.str ['5']))
    [.str ['5']] "id".data "core::option::Option<i32>".data ['5']).2 (by decide)

/-- C3 counterexample: a present cell 5 for a field of declared type
`Option<i32>` — the inner codec parses it to 5, so the claim requires the
parsed value `Some(5)`, yet row deserialization returns `None`: the codec
result is ignored. -/
theorem c3_optional_field_ignores_present_cell :
    parse_optional_value "core::option::Option<i32>".data (none : Option Int)
        (optionDeserialize i32Deserialize) (some (.str ['5'])) [.str ['5']]
        "id".data = .ok none ∧
    i32Deserialize ['5'] = .ok 5 ∧
    (Except.ok (some (5 : Int)) : Except ParseError (Option Int)) ≠ .ok none := by
  refine ⟨by decide, by decide, by decide⟩

/-! ## Textual forms and range parsing (src/types/range/a1_range.rs) -/

/-- Fuel-driven decimal digit emitter (fuel only bounds the loop). -/
def natToCharsF : Nat → Nat → List Char
  | _, 0 => []
  | 0, _ + 1 => []
  | f + 1, n + 1 => natToCharsF f ((n + 1) / 10) ++ [Char.ofNat ((n + 1) % 10 + 48)]

/-- Decimal rendering of a natural number (Rust `Display` for integers). -/
def natToChars (n : Nat) : List Char := if n = 0 then ['0'] else natToCharsF n n

/-- `A1CellId::to_string` (a1_cell_id.rs lines 124-126):
`format!("{}{}", col, row)`. -/
def A1CellId.toText (c : A1CellId) : List Char := c.col ++ natToChars c.row

/-- `A1Range::to_string` (a1_range.rs lines 144-146):
`format!("{}:{}", start, end)`. -/
def A1Range.toText (r : A1Range) : List Char :=
  A1CellId.toText r.start ++ ':' :: A1CellId.toText r.endCell

/-- `impl Display for SheetA1Range` (a1_range.rs lines 262-270):
`format!("{}!{}", self.sheet, self.range.to_string())` — the sheet name is
written as-is, with no quoting. -/
def SheetA1Range.toText (sr : SheetA1Range) : List Char :=
  sr.sheet ++ '!' :: A1Range.toText sr.range

/-- Rust `str::split(sep)`: cut the string at every separator; always returns
at least one (possibly empty) part. -/
def splitChar (sep : Char) : List Char → List (List Char)
  | [] => [[]]
  | c :: rest =>
    match splitChar sep rest with
    | [] => [[]]
    | h :: t => if c = sep then [] :: h :: t else (c :: h) :: t

/-- Rust `str::trim_matches(c)`: drop every leading and trailing occurrence. -/
def trimMatches (c : Char) (l : List Char) : List Char :=
  ((l.dropWhile (fun x => x == c)).reverse.dropWhile (fun x => x == c)).reverse

/-- The single-quote character (written by code point to keep the source free
of quote literals). -/
def quoteChar : Char := Char.ofNat 39

/-- `A1RangeError` (a1_range.rs lines 8-14). -/
inductive A1RangeError where
  | invalidRangeFormat (s : List Char)
  | cellParsingError
deriving DecidableEq, Repr

/-- ASCII uppercase letter test. -/
def isUpperChar (c : Char) : Bool := 'A' ≤ c && c ≤ 'Z'

/-- Modelled from the spec: `A1CellId::from_raw` is called by the range
parsers (a1_range.rs lines 133, 137, 161, 165) but its definition is missing
from src/. Per the spec, a cell text is `<Letters><positive integer>`
(uppercase base-26 column code, then a 1-based row number), and any other
input is a typed address-parsing error. -/
def A1CellId.from_raw (s : List Char) : Except A1CellIdError A1CellId :=
  let letters := s.takeWhile isUpperChar
  let digits := s.dropWhile isUpperChar
  if letters ≠ [] ∧ digits ≠ [] ∧ digits.all isAsciiDigitChar ∧ 1 ≤ digitsToNat digits
  then .ok { col := letters, row := digitsToNat digits }
  else .error (.invalidCellFormat s)

/-- `A1Range::from_raw` (a1_range.rs lines 149-171): split on `:`, demand
exactly two parts (else the range-format error), parse both cells, mapping a
cell failure to `CellParsingError`. -/
def A1Range.from_raw (s : List Char) : Except A1RangeError A1Range :=
  match splitChar ':' s with
  | [p1, p2] =>
    match A1CellId.from_raw p1 with
    | .error _ => .error .cellParsingError
    | .ok a =>
      match A1CellId.from_raw p2 with
      | .error _ => .error .cellParsingError
      | .ok b => .ok { start := a, endCell := b }
  | _ => .error (.invalidRangeFormat s)

/-- `SheetA1Range::from_raw` (a1_range.rs lines 226-244): split on `!`, demand
exactly two parts, strip single quotes around the sheet name with
`trim_matches`, parse the inner range and propagate its error unchanged. -/
def SheetA1Range.from_raw (s : List Char) : Except A1RangeError SheetA1Range :=
  match splitChar '!' s with
  | [p1, p2] =>
    let page := trimMatches quoteChar p1
    match A1Range.from_raw p2 with
    | .ok r => .ok { sheet := page, range := r }
    | .error e => .error e
  | _ => .error (.invalidRangeFormat s)

theorem splitChar_ne_nil (sep : Char) : ∀ l : List Char, splitChar sep l ≠ [] := by
  intro l
  cases l with
  | nil => simp [splitChar]
  | cons c rest =>
    unfold splitChar
    cases splitChar sep rest with
    | nil => simp
    | cons h t =>
      by_cases hc : c = sep <;> simp [hc]

theorem splitChar_of_not_mem (sep : Char) :
    ∀ l : List Char, sep ∉ l → splitChar sep l = [l] := by
  intro l
  induction l with
  | nil => intro _; rfl
  | cons c rest ih =>
    intro h
    have hc : c ≠ sep := fun he => h (by rw [he]; exact List.mem_cons_self _ _)
    have hr : sep ∉ rest := fun hm => h (List.mem_cons_of_mem _ hm)
    unfold splitChar
    rw [ih hr]
    simp [hc]

theorem splitChar_append (sep : Char) :
    ∀ p₁ p₂ : List Char, sep ∉ p₁ →
      splitChar sep (p₁ ++ sep :: p₂) = p₁ :: splitChar sep p₂ := by
  intro p₁ p₂ h
  induction p₁ with
  | nil =>
    show splitChar sep (sep :: p₂) = [] :: splitChar sep p₂
    cases hs : splitChar sep p₂ with
    | nil => exact absurd hs (splitChar_ne_nil sep p₂)
    | cons a t =>
      have hstep : splitChar sep (sep :: p₂) =
          match splitChar sep p₂ with
          | [] => [[]]
          | h :: t => if sep = sep then [] :: h :: t else (sep :: h) :: t := rfl
      rw [hstep, hs]
      simp
  | cons c rest ih =>
    have hc : c ≠ sep := fun he => h (by rw [he]; exact List.mem_cons_self _ _)
    have hr : sep ∉ rest := fun hm => h (List.mem_cons_of_mem _ hm)
    show splitChar sep (c :: (rest ++ sep :: p₂)) = (c :: rest) :: splitChar sep p₂
    have hstep : splitChar sep (c :: (rest ++ sep :: p₂)) =
        match splitChar sep (rest ++ sep :: p₂) with
        | [] => [[]]
        | h :: t => if c = sep then [] :: h :: t else (c :: h) :: t := rfl
    rw [hstep, ih hr]
    simp [hc]

/-- C9 (amended): the textual form of a `SheetA1Range` is the sheet name
written as-is (not single-quoted as the claim states — see the
counterexample), then `!`, then the `start:end` range text; parsing a
sheet-qualified range strips surrounding single quotes from the sheet part,
fails with the typed range-format error when the `!` separator is missing,
and propagates the typed error of the inner range parse when that fails. -/
theorem c9_sheet_range_text :
    ∀ (sr : SheetA1Range) (s p₁ p₂ : List Char),
      (SheetA1Range.toText sr =
        sr.sheet ++ '!' ::
          (A1CellId.toText sr.range.start ++ ':' :: A1CellId.toText sr.range.endCell)) ∧
      ('!' ∉ s → SheetA1Range.from_raw s = .error (.invalidRangeFormat s)) ∧
      ('!' ∉ p₁ → '!' ∉ p₂ →
        SheetA1Range.from_raw (p₁ ++ '!' :: p₂) =
          match A1Range.from_raw p₂ with
          | .ok r => .ok { sheet := trimMatches quoteChar p₁, range := r }
          | .error e => .error e) := by
  intro sr s p₁ p₂
  refine ⟨rfl, ?_, ?_⟩
  · intro h
    unfold SheetA1Range.from_raw
    rw [splitChar_of_not_mem '!' s h]
  · intro h₁ h₂
    unfold SheetA1Range.from_raw
    rw [splitChar_append '!' p₁ p₂ h₁, splitChar_of_not_mem '!' p₂ h₂]

/-- C9 witness: the amended statement evaluated on the sheet name My Sheet
with range A1:C3, on an input with no separator, and on a quoted input. -/
theorem c9_sheet_range_text_witness :
    SheetA1Range.toText ⟨"My Sheet".data, ⟨⟨['A'], 1⟩, ⟨['C'], 3⟩⟩⟩ =
      "My Sheet".data ++ '!' ::
        (A1CellId.toText ⟨['A'], 1⟩ ++ ':' :: A1CellId.toText ⟨['C'], 3⟩) ∧
    SheetA1Range.from_raw "A1:C3".data = .error (.invalidRangeFormat "A1:C3".data) ∧
    SheetA1Range.from_raw (([quoteChar] ++ "My Sheet".data ++ [quoteChar]) ++ '!' :: "A1:C3".data) =
      match A1Range.from_raw "A1:C3".data with
      | .ok r => .ok { sheet := trimMatches quoteChar ([quoteChar] ++ "My Sheet".data ++ [quoteChar]),
                       range := r }
      | .error e => .error e :=
  ⟨(c9_sheet_range_text ⟨"My Sheet".data, ⟨⟨['A'], 1⟩, ⟨['C'], 3⟩⟩⟩ "A1:C3".data
      [] []).1,
   (c9_sheet_range_text ⟨"My Sheet".data, ⟨⟨['A'], 1⟩, ⟨['C'], 3⟩⟩⟩ "A1:C3".data
      [] []).2.1 (by decide),
   (c9_sheet_range_text ⟨"My Sheet".data, ⟨⟨['A'], 1⟩, ⟨['C'], 3⟩⟩⟩ "A1:C3".data
      ([quoteChar] ++ "My Sheet".data ++ [quoteChar]) "A1:C3".data).2.2
      (by decide) (by decide)⟩

/-- C9 counterexample: for the sheet name My Sheet with range A1:C3 the code
produces My Sheet!A1:C3 with the sheet name unquoted, not the claimed
quoted form; parsing does strip the quotes from the quoted form. -/
theorem c9_display_not_quoted :
    SheetA1Range.toText ⟨"My Sheet".data, ⟨⟨['A'], 1⟩, ⟨['C'], 3⟩⟩⟩ =
      "My Sheet!A1:C3".data ∧
    "My Sheet!A1:C3".data ≠
      [quoteChar] ++ "My Sheet".data ++ [quoteChar] ++ "!A1:C3".data ∧
    SheetA1Range.from_raw ([quoteChar] ++ "My Sheet".data ++ [quoteChar] ++ "!A1:C3".data) =
      .ok ⟨"My Sheet".data, ⟨⟨['A'], 1⟩, ⟨['C'], 3⟩⟩⟩ := by
  refine ⟨by decide, by decide, by decide⟩

/-! ## Entities and the repository (src/types/entity.rs, src/orm/mod.rs) -/

/-- `Entity<E>` (entity.rs): a record bound to its sheet position. -/
structure Entity (E : Type) where
  position : SheetA1CellId
  data : E
deriving DecidableEq, Repr

/-- `UpdateValuesResponse` restricted to the one field the code reads
(`updated_range`); the other fields of the google_sheets4 type are never
touched by the source. -/
structure UpdateValuesResponse where
  updated_range : Option (List Char)
deriving DecidableEq, Repr

/-- `AppendValuesResponse` restricted to the one field the code reads
(`updates`). -/
structure AppendValuesResponse where
  updates : Option UpdateValuesResponse
deriving DecidableEq, Repr

/-- `RepositoryError` (orm/mod.rs lines 10-24). The `UnexpectedResponse`
variant carries the boxed raw response; its `input` field is a Debug-formatted
diagnostic string of the request, immaterial to the claims and not modelled. -/
inductive RepositoryError where
  | driverError
  | invalidArgument (msg : List Char)
  | parsingError
  | unexpectedResponse (what : List Char) (response : AppendValuesResponse)
deriving DecidableEq, Repr

/-- `Repository::delete` (orm/mod.rs lines 158-163): the body is
`todo!("Brainstorm on how to delete entities properly")`, which panics
unconditionally before anything reaches the driver. -/
def Repository.delete {E : Type} (_entity : Entity E) : Outcome RepositoryError Unit :=
  .panicked ("not yet implemented: Brainstorm on how to delete entities properly".data)

/-- C8 (amended): for every entity, `Repository::delete` panics with the
not-yet-implemented contract panic of `todo!`; it never returns (so it never
silently succeeds and never returns a typed not-supported error value), and
it panics before issuing any call to the Grid Access Service, leaving the
remote store untouched. -/
theorem c8_delete_panics :
    ∀ (E : Type) (entity : Entity E),
      Repository.delete entity =
        .panicked ("not yet implemented: Brainstorm on how to delete entities properly".data) := by
  intro E entity
  rfl

/-- C8 counterexample: `delete` on a concrete entity panics instead of
returning the typed not-supported error value the claim requires (the result
is the `panicked` outcome, not an `error` one). -/
theorem c8_delete_counterexample :
    Repository.delete (E := Unit) ⟨⟨"users".data, ⟨['A'], 1⟩⟩, ()⟩ =
      .panicked ("not yet implemented: Brainstorm on how to delete entities properly".data) ∧
    ∀ e : RepositoryError,
      Repository.delete (E := Unit) ⟨⟨"users".data, ⟨['A'], 1⟩⟩, ()⟩ ≠ .error e := by
  refine ⟨rfl, ?_⟩
  intro e h
  cases h

/-- The response-handling tail of `Repository::insert` (orm/mod.rs lines
129-156): given the append response, bail with the distinct
`UnexpectedResponse` error (carrying the raw response) when `updates` or
`updated_range` is absent, otherwise parse the echoed updated range
(`SheetA1Range::from_raw`, a parse failure becoming `ParsingError`) and
return the entity positioned at the start of that range. The preceding steps
of `insert` (serialization and the driver call) happen before a response
exists and are outside this function. -/
def Repository.insertFromResponse {E : Type} (entity_data : E)
    (avr : AppendValuesResponse) : Except RepositoryError (Entity E) :=
  match avr.updates with
  | none =>
    .error (.unexpectedResponse ("AppendValuesResponse does not have updates".data) avr)
  | some updates =>
    match updates.updated_range with
    | none =>
      .error (.unexpectedResponse ("UpdateValuesResponse does not have updated_range".data) avr)
    | some updated_range =>
      match SheetA1Range.from_raw updated_range with
      | .error _ => .error .parsingError
      | .ok position => .ok { position := position.startCell, data := entity_data }

/-- C7: an append response without `updates`, or without `updated_range`
inside it, makes `insert` return the distinct unexpected-response error
carrying the raw response (the function returns, it does not panic, and no
entity with a default position is produced); when both fields are present
and the echoed range parses, the returned entity is the given data positioned
at the start of the echoed range. -/
theorem c7_insert_unexpected_response :
    ∀ (E : Type) (entity_data : E) (avr : AppendValuesResponse)
      (u : UpdateValuesResponse) (r : List Char) (sr : SheetA1Range),
      (avr.updates = none →
        Repository.insertFromResponse entity_data avr =
          .error (.unexpectedResponse ("AppendValuesResponse does not have updates".data) avr)) ∧
      (avr.updates = some u → u.updated_range = none →
        Repository.insertFromResponse entity_data avr =
          .error (.unexpectedResponse
            ("UpdateValuesResponse does not have updated_range".data) avr)) ∧
      (avr.updates = some u → u.updated_range = some r →
        SheetA1Range.from_raw r = .ok sr →
        Repository.insertFromResponse entity_data avr =
          .ok { position := sr.startCell, data := entity_data }) := by
  intro E entity_data avr u r sr
  refine ⟨?_, ?_, ?_⟩
  · intro h
    simp [Repository.insertFromResponse, h]
  · intro h hu
    simp [Repository.insertFromResponse, h, hu]
  · intro h hu hr
    simp [Repository.insertFromResponse, h, hu, hr]

/-- C7 witness: the three branches evaluated on concrete responses (no
updates; updates without an updated range; a response echoing users!A1:B1). -/
theorem c7_insert_unexpected_response_witness :
    Repository.insertFromResponse (E := Unit) () ⟨none⟩ =
      .error (.unexpectedResponse ("AppendValuesResponse does not have updates".data) ⟨none⟩) ∧
    Repository.insertFromResponse (E := Unit) () ⟨some ⟨none⟩⟩ =
      .error (.unexpectedResponse
        ("UpdateValuesResponse does not have updated_range".data) ⟨some ⟨none⟩⟩) ∧
    Repository.insertFromResponse (E := Unit) () ⟨some ⟨some "users!A1:B1".data⟩⟩ =
      .ok { position := SheetA1Range.startCell ⟨"users".data, ⟨⟨['A'], 1⟩, ⟨['B'], 1⟩⟩⟩,
            data := () } :=
  ⟨(c7_insert_unexpected_response Unit () ⟨none⟩ ⟨none⟩ [] ⟨[], ⟨⟨[], 1⟩, ⟨[], 1⟩⟩⟩).1 rfl,
   (c7_insert_unexpected_response Unit () ⟨some ⟨none⟩⟩ ⟨none⟩ []
      ⟨[], ⟨⟨[], 1⟩, ⟨[], 1⟩⟩⟩).2.1 rfl rfl,
   (c7_insert_unexpected_response Unit () ⟨some ⟨some "users!A1:B1".data⟩⟩
      ⟨some "users!A1:B1".data⟩ "users!A1:B1".data
      ⟨"users".data, ⟨⟨['A'], 1⟩, ⟨['B'], 1⟩⟩⟩).2.2 rfl rfl (by decide)⟩

/-! ## Positional parsing of matched ranges (src/orm/mod.rs lines 166-234) -/

/-- `DataFilter` restricted to the one field the code reads. -/
structure DataFilter where
  a1_range : Option (List Char)
deriving DecidableEq, Repr

/-- `ValueRange` restricted to the one field the code reads. -/
structure ValueRange where
  values : Option (List (List CellValue))
deriving DecidableEq, Repr

/-- `MatchedValueRange`: the echoed data filters and the value range. -/
structure MatchedValueRange where
  data_filters : Option (List DataFilter)
  value_range : Option ValueRange
deriving DecidableEq, Repr

/-- `Display` of `A1RangeError` (thiserror `#[error(..)]` texts; the
apostrophe of the cell-parsing text is elided). Used because
`extract_range_from_filters` formats the parse error into the
invalid-argument message. -/
def displayRangeError : A1RangeError → List Char
  | .invalidRangeFormat s => "Invalid range format: ".data ++ s
  | .cellParsingError => "Cant parse cell".data

/-- `PositionalParsing::extract_range_from_filters` (orm/mod.rs lines
206-233): demand that `data_filters` is present and holds exactly one filter
(`filters.len() != 1` bails, then `first().expect(..)` cannot fail), that the
filter carries an `a1_range`, and that the range parses; every failure is the
`InvalidArgument` error. -/
def extract_range_from_filters (mvr : MatchedValueRange) :
    Except RepositoryError SheetA1Range :=
  match mvr.data_filters with
  | none => .error (.invalidArgument "MatchedValueRange does not have data filters".data)
  | some filters =>
    match filters with
    | [filter] =>
      match filter.a1_range with
      | none => .error (.invalidArgument "Data filter does not have A1 range".data)
      | some range =>
        match SheetA1Range.from_raw range with
        | .ok sr => .ok sr
        | .error e => .error (.invalidArgument (displayRangeError e))
    | _ => .error (.invalidArgument "MatchedValueRange does not have exactly one filter".data)

/-- The enumerated row loop of `parse_positionally` (orm/mod.rs lines
186-202): deserialize each row, attach the position whose column is the
anchor's start column and whose row is `start.row + i` (`i as u32` wrap-around
addition), and stop at the first deserialization failure, which becomes
`ParsingError` (the collected `Result` short-circuits). -/
def positional_rows {E : Type} (deserialize : List CellValue → Except ParseError E)
    (sheet col : List Char) (startRow : Nat) :
    Nat → List (List CellValue) → Except RepositoryError (List (Entity E))
  | _, [] => .ok []
  | i, value :: rest =>
    match deserialize value with
    | .error _ => .error .parsingError
    | .ok d =>
      match positional_rows deserialize sheet col startRow (i + 1) rest with
      | .error e => .error e
      | .ok tl =>
        .ok ({ position := ⟨sheet, ⟨col, (startRow + i) % u32Mod⟩⟩, data := d } :: tl)

/-- `PositionalParsing::parse_positionally` (orm/mod.rs lines 173-204): pull
the anchor out of the filters (typed error on failure), then
`self.value_range.expect("Expected to get range")` — a missing value range is
a panic, not an error — then `values.unwrap_or_default()` and the enumerated
row loop. The Rust generic over `E: EntityEssentials` is embedded by passing
`E::deserialize`. -/
def parse_positionally {E : Type} (deserialize : List CellValue → Except ParseError E)
    (mvr : MatchedValueRange) : Outcome RepositoryError (List (Entity E)) :=
  match extract_range_from_filters mvr with
  | .error e => .error e
  | .ok sr =>
    match mvr.value_range with
    | none => .panicked "Expected to get range".data
    | some vr =>
      match positional_rows deserialize sr.sheet sr.range.start.col sr.range.start.row
          0 (vr.values.getD []) with
      | .ok l => .ok l
      | .error e => .error e

/-- The `User` record of the repository's own positional-parsing test
(orm/mod.rs lines 246-274): id at index 0, name at index 1, entity width 2. -/
structure User where
  id : Int
  name : List Char
deriving DecidableEq, Repr

/-- `SheetRowSerde::deserialize` for `User` (orm/mod.rs lines 252-261):
`id: row.parse_cell(0, "id")?`, `name: row.parse_cell(1, "name")?`, with the
printed type names `i32` and `alloc::string::String`. -/
def User.deserialize (row : List CellValue) : Except ParseError User :=
  match parse_cell "i32".data 0 i32Deserialize row 0 "id".data with
  | .error e => .error e
  | .ok id =>
    match parse_cell "alloc::string::String".data [] stringDeserialize row 1 "name".data with
    | .error e => .error e
    | .ok name => .ok { id := id, name := name }

/-- The mocked matched-range response of the repository's test
(orm/mod.rs lines 280-304): anchored at users!A1:B3 with three rows. -/
def mockedQueryResponse : MatchedValueRange :=
  { data_filters := some [{ a1_range := some "users!A1:B3".data }],
    value_range := some
      { values := some
          [[.str ['1'], .str "Joe".data],
           [.str ['2'], .str "John".data],
           [.str ['3'], .str "Jane".data]] } }

theorem positional_rows_all_ok {E : Type}
    (deserialize : List CellValue → Except ParseError E)
    (sheet col : List Char) (startRow : Nat) :
    ∀ (rows : List (List CellValue)) (i : Nat),
      (∀ r ∈ rows, (deserialize r).isOk = true) →
      startRow + i + rows.length < u32Mod →
      ∃ es, positional_rows deserialize sheet col startRow i rows = .ok es ∧
        es.length = rows.length ∧
        ∀ j r, rows.get? j = some r →
          ∃ d, deserialize r = .ok d ∧
            es.get? j =
              some { position := ⟨sheet, ⟨col, startRow + i + j⟩⟩, data := d } := by
  intro rows
  induction rows with
  | nil =>
    intro i _ _
    exact ⟨[], rfl, rfl, by intro j r hj; cases j <;> cases hj⟩
  | cons r rest ih =>
    intro i hok hbound
    have hr : (deserialize r).isOk = true := hok r (List.mem_cons_self _ _)
    obtain ⟨d, hd⟩ : ∃ d, deserialize r = .ok d := by
      cases hdr : deserialize r with
      | ok d => exact ⟨d, rfl⟩
      | error e => rw [hdr] at hr; cases hr
    obtain ⟨es', h1, h2, h3⟩ :=
      ih (i + 1) (fun x hx => hok x (List.mem_cons_of_mem _ hx)) (by simp at hbound ⊢; omega)
    refine ⟨{ position := ⟨sheet, ⟨col, startRow + i⟩⟩, data := d } :: es', ?_, ?_, ?_⟩
    · show (match deserialize r with
        | .error _ => .error .parsingError
        | .ok d =>
          match positional_rows deserialize sheet col startRow (i + 1) rest with
          | .error e => .error e
          | .ok tl =>
            .ok ({ position := ⟨sheet, ⟨col, (startRow + i) % u32Mod⟩⟩, data := d } :: tl)) =
        Except.ok ({ position := ⟨sheet, ⟨col, startRow + i⟩⟩, data := d } :: es')
      rw [hd, h1, Nat.mod_eq_of_lt (by simp at hbound; omega)]
    · simp [h2]
    · intro j rj hj
      cases j with
      | zero =>
        cases hj
        exact ⟨d, hd, by simp⟩
      | succ m =>
        obtain ⟨dm, hdm, hes⟩ := h3 m rj hj
        refine ⟨dm, hdm, ?_⟩
        show es'.get? m = _
        rw [hes]
        have : startRow + (i + 1) + m = startRow + i + (m + 1) := by omega
        rw [this]

/-- C2 (amended): for every matched-range response, if the response carries
zero filter descriptors (absent or empty list) or more than one, positional
decode is the invalid-argument error; if it carries exactly one descriptor
whose echoed range parses AND it carries a value range (the original claim
omitted this premise — a response without one makes the code panic, see the
counterexample), then, provided each row decodes, the decode succeeds and the
i-th entity is positioned at the echoed sheet, the echoed start column, and
the echoed start row plus i. On the repository's own mocked users!A1:B3
response the result is exactly the three users at users!A1, users!A2,
users!A3. -/
theorem c2_positional_parse :
    ∀ (E : Type) (deserialize : List CellValue → Except ParseError E)
      (mvr : MatchedValueRange) (fs : List DataFilter) (f : DataFilter)
      (rg : List Char) (sr : SheetA1Range) (vr : ValueRange),
      (mvr.data_filters = none →
        parse_positionally deserialize mvr =
          .error (.invalidArgument "MatchedValueRange does not have data filters".data)) ∧
      (mvr.data_filters = some fs → fs.length ≠ 1 →
        parse_positionally deserialize mvr =
          .error (.invalidArgument "MatchedValueRange does not have exactly one filter".data)) ∧
      (mvr.data_filters = some [f] → f.a1_range = some rg →
        SheetA1Range.from_raw rg = .ok sr → mvr.value_range = some vr →
        sr.range.start.row + (vr.values.getD []).length < u32Mod →
        (∀ r ∈ vr.values.getD [], (deserialize r).isOk = true) →
        ∃ es, parse_positionally deserialize mvr = .ok es ∧
          es.length = (vr.values.getD []).length ∧
          ∀ j r, (vr.values.getD []).get? j = some r →
            ∃ d, deserialize r = .ok d ∧
              es.get? j = some { position := ⟨sr.sheet,
                ⟨sr.range.start.col, sr.range.start.row + j⟩⟩, data := d }) ∧
      (parse_positionally User.deserialize mockedQueryResponse =
        .ok [{ position := ⟨"users".data, ⟨['A'], 1⟩⟩, data := ⟨1, "Joe".data⟩ },
             { position := ⟨"users".data, ⟨['A'], 2⟩⟩, data := ⟨2, "John".data⟩ },
             { position := ⟨"users".data, ⟨['A'], 3⟩⟩, data := ⟨3, "Jane".data⟩ }]) := by
  intro E deserialize mvr fs f rg sr vr
  refine ⟨?_, ?_, ?_, by decide⟩
  · intro h
    simp [parse_positionally, extract_range_from_filters, h]
  · intro h hlen
    cases fs with
    | nil => simp [parse_positionally, extract_range_from_filters, h]
    | cons a t =>
      cases t with
      | nil => exact absurd rfl hlen
      | cons b t2 => simp [parse_positionally, extract_range_from_filters, h]
  · intro h hf hrg hvr hbound hok
    obtain ⟨es, h1, h2, h3⟩ := positional_rows_all_ok deserialize sr.sheet
      sr.range.start.col sr.range.start.row (vr.values.getD []) 0 hok
      (by omega)
    refine ⟨es, ?_, h2, ?_⟩
    · simp only [parse_positionally, extract_range_from_filters, h, hf, hrg, hvr, h1]
    · intro j r hj
      obtain ⟨d, hd, hes⟩ := h3 j r hj
      refine ⟨d, hd, ?_⟩
      rw [hes]
      have : sr.range.start.row + 0 + j = sr.range.start.row + j := by omega
      rw [this]

/-- C2 witness: the amended statement evaluated on the mocked users!A1:B3
response of the repository's test (one descriptor, parseable range, value
range present, all three rows decode). -/
theorem c2_positional_parse_witness :
    ∃ es, parse_positionally User.deserialize mockedQueryResponse = .ok es ∧
      es.length = 3 ∧
      ∀ j r,
        ([[CellValue.str ['1'], CellValue.str "Joe".data],
          [CellValue.str ['2'], CellValue.str "John".data],
          [CellValue.str ['3'], CellValue.str "Jane".data]] : List (List CellValue)).get? j =
            some r →
        ∃ d, User.deserialize r = .ok d ∧
          es.get? j = some { position := ⟨"users".data, ⟨['A'], 1 + j⟩⟩, data := d } :=
  (c2_positional_parse User User.deserialize mockedQueryResponse
      [{ a1_range := some "users!A1:B3".data }] { a1_range := some "users!A1:B3".data }
      "users!A1:B3".data ⟨"users".data, ⟨⟨['A'], 1⟩, ⟨['B'], 3⟩⟩⟩
      { values := some
          [[.str ['1'], .str "Joe".data],
           [.str ['2'], .str "John".data],
           [.str ['3'], .str "Jane".data]] }).2.2.1
    rfl rfl (by decide) rfl (by decide) (by decide)

/-- C2 counterexample: a response carrying exactly one descriptor with the
parseable echoed range users!A1:B3 but no value range — the claim requires
positional decode to succeed (there are no rows to fail on), yet the code
panics on `expect("Expected to get range")`. -/
theorem c2_missing_value_range_panics :
    parse_positionally User.deserialize
        { data_filters := some [{ a1_range := some "users!A1:B3".data }],
          value_range := none } =
      .panicked "Expected to get range".data ∧
    (Outcome.panicked "Expected to get range".data ≠
      (Outcome.ok [] : Outcome RepositoryError (List (Entity User)))) := by
  refine ⟨by decide, by decide⟩

/-! ## Spreadsheet date serial (src/types/sheet_date.rs)

The source works on `f64`, but every floating-point operation it performs is
exact: `f64::floor` is exact, the `as i64` cast saturates at the i64 bounds,
and the day count cast back to `f64` is far below 2^53. A finite `f64` value
is therefore embedded as the rational number it denotes. -/

/-- Day number of a proleptic Gregorian civil date, with day 0 = 1970-01-01
(the standard civil-from-date computation, used to model `chrono::NaiveDate`
as its day number). -/
def days_from_civil (y m d : Int) : Int :=
  let yAdj := if m ≤ 2 then y - 1 else y
  let era := Int.fdiv yAdj 400
  let yoe := yAdj - era * 400
  let mShift := if 2 < m then m - 3 else m + 9
  let doy := Int.fdiv (153 * mShift + 2) 5 + d - 1
  let doe := yoe * 365 + Int.fdiv yoe 4 - Int.fdiv yoe 100 + doy
  era * 146097 + doe - 719468

/-- First day representable by `chrono::NaiveDate` (year -262144). -/
def chronoMinDay : Int := days_from_civil (-262144) 1 1

/-- Last day representable by `chrono::NaiveDate` (year 262143). -/
def chronoMaxDay : Int := days_from_civil 262143 12 31

/-- `chrono::NaiveDate`, modelled by its civil day number. -/
structure NaiveDate where
  days : Int
deriving DecidableEq, Repr

/-- `NaiveDate::checked_add_signed(Duration::days(..))`: shift by a number of
days, `None` outside the representable range. -/
def NaiveDate.checked_add_signed (d : NaiveDate) (delta : Int) : Option NaiveDate :=
  if chronoMinDay ≤ d.days + delta ∧ d.days + delta ≤ chronoMaxDay then
    some ⟨d.days + delta⟩
  else none

/-- `SpreadSheetDateTime::BASE_DATE`: December 30, 1899. -/
def BASE_DATE : NaiveDate := ⟨days_from_civil 1899 12 30⟩

/-- Rust `f64 as i64`: saturating cast (the claims only reach it with
integral values, embedded as `Int`). -/
def i64SatCast (n : Int) : Int :=
  if n < -(2 ^ 63) then -(2 ^ 63)
  else if (2 ^ 63 - 1) < n then 2 ^ 63 - 1
  else n

/-- `SpreadSheetDateTime` (sheet_date.rs lines 4-7). -/
structure SpreadSheetDateTime where
  date : NaiveDate
deriving DecidableEq, Repr

/-- `SpreadSheetDateTime::from_raw` (sheet_date.rs lines 14-19):
`days = value.floor() as i64`, then `BASE_DATE.checked_add_signed(days)`. -/
def SpreadSheetDateTime.from_raw (v : ℚ) : Option SpreadSheetDateTime :=
  let days := i64SatCast ⌊v⌋
  (BASE_DATE.checked_add_signed days).map (fun d => ⟨d⟩)

/-- `SpreadSheetDateTime::to_raw` (sheet_date.rs lines 22-24):
`(self.date - BASE_DATE).num_days() as f64` (exact, the day count is far
below 2^53). -/
def SpreadSheetDateTime.to_raw (t : SpreadSheetDateTime) : ℚ :=
  ((t.date.days - BASE_DATE.days : Int) : ℚ)


/-- C10: the date-serial conversion keeps only the whole-day part: for every
value `v`, `from_raw v` equals `from_raw ⌊v⌋`, and whenever the conversion
succeeds the stored date is the base date 1899-12-30 shifted by exactly
`⌊v⌋` days and `to_raw` returns `⌊v⌋` — so the round trip is the identity
exactly on whole-day serials. -/
theorem c10_date_serial_floor :
    ∀ (v : ℚ) (t : SpreadSheetDateTime),
      (SpreadSheetDateTime.from_raw v = SpreadSheetDateTime.from_raw (⌊v⌋ : ℚ)) ∧
      (SpreadSheetDateTime.from_raw v = some t →
        t.date.days = BASE_DATE.days + ⌊v⌋ ∧
        SpreadSheetDateTime.to_raw t = ((⌊v⌋ : Int) : ℚ)) := by
  intro v t
  constructor
  · simp [SpreadSheetDateTime.from_raw, Int.floor_intCast]
  · intro h
    unfold SpreadSheetDateTime.from_raw NaiveDate.checked_add_signed at h
    simp only [Option.map] at h
    have hc : i64SatCast ⌊v⌋ = ⌊v⌋ := by
      by_cases h1 : ⌊v⌋ < -(2 ^ 63)
      · exfalso
        rw [show i64SatCast ⌊v⌋ = -(2 ^ 63) from by
          unfold i64SatCast; rw [if_pos h1]] at h
        rw [if_neg (by decide)] at h
        exact Option.noConfusion h
      · by_cases h2 : (2 ^ 63 - 1) < ⌊v⌋
        · exfalso
          rw [show i64SatCast ⌊v⌋ = 2 ^ 63 - 1 from by
            unfold i64SatCast; rw [if_neg h1, if_pos h2]] at h
          rw [if_neg (by decide)] at h
          exact Option.noConfusion h
        · unfold i64SatCast
          rw [if_neg h1, if_neg h2]
    rw [hc] at h
    by_cases hin : chronoMinDay ≤ BASE_DATE.days + ⌊v⌋ ∧ BASE_DATE.days + ⌊v⌋ ≤ chronoMaxDay
    · rw [if_pos hin] at h
      cases h
      refine ⟨rfl, ?_⟩
      show ((BASE_DATE.days + ⌊v⌋ - BASE_DATE.days : Int) : ℚ) = ((⌊v⌋ : Int) : ℚ)
      have harith : BASE_DATE.days + ⌊v⌋ - BASE_DATE.days = ⌊v⌋ := by omega
      rw [harith]
    · rw [if_neg hin] at h
      exact Option.noConfusion h

/-- C10 witness: the serial 3.5 (the rational 7/2) converts to the date three
whole days past the base date 1899-12-30 and converts back to the whole-day
serial 3. -/
theorem c10_date_serial_floor_witness :
    SpreadSheetDateTime.from_raw ((7 : ℚ) / 2) = some ⟨⟨BASE_DATE.days + 3⟩⟩ ∧
    (⟨⟨BASE_DATE.days + 3⟩⟩ : SpreadSheetDateTime).date.days =
      BASE_DATE.days + ⌊(7 : ℚ) / 2⌋ ∧
    SpreadSheetDateTime.to_raw ⟨⟨BASE_DATE.days + 3⟩⟩ = ((⌊(7 : ℚ) / 2⌋ : Int) : ℚ) := by
  have hfl : ⌊(7 : ℚ) / 2⌋ = 3 := by norm_num [Int.floor_eq_iff]
  have hfr : SpreadSheetDateTime.from_raw ((7 : ℚ) / 2) = some ⟨⟨BASE_DATE.days + 3⟩⟩ := by
    simp only [SpreadSheetDateTime.from_raw, NaiveDate.checked_add_signed, hfl]
    rw [show i64SatCast 3 = 3 from by decide]
    rw [if_pos (by constructor <;> decide)]
    rfl
  have hmain := (c10_date_serial_floor ((7 : ℚ) / 2) ⟨⟨BASE_DATE.days + 3⟩⟩).2 hfr
  exact ⟨hfr, hmain.1, hmain.2⟩
